import Mathlib

/-!
A shallow embedding of the settings-editor widgets of this repository:
the `PluginList` (selection, confirmation hook, modified-set recomputation,
rendering-hint resolution, sorting and filtering of plugins), the two
`PluginEditor` variants (the raw text editor and the form-based editor) and
`SimpleSettingsEditor.onCloseRequest`.  Asynchronous promises are modelled by
their outcome (`Except`), DOM inputs (event targets, scroll offsets, dialog
button choices) are explicit arguments, and signal emissions and `update()`
requests are counted in the widget state.
-/

deriving instance DecidableEq for Except

/-- A JavaScript runtime value as far as this code inspects one: the settings
data and schema hold JSON-ish values that are only ever tested for strict
equality with `true`/`false`, for truthiness, and for `typeof v === 'string'`.
`obj n` is an opaque object or array token (always truthy); numbers are
carried as integers, which suffices for the truthiness tests performed here. -/
inductive JsVal where
  | undefined : JsVal
  | null : JsVal
  | bool : Bool → JsVal
  | num : Int → JsVal
  | str : String → JsVal
  | obj : Nat → JsVal
  deriving DecidableEq, Repr

/-- JavaScript truthiness: `undefined`, `null`, `false`, `0` and `""` are
falsy, everything else modelled here is truthy. -/
def JsVal.truthy : JsVal → Bool
  | .undefined => false
  | .null => false
  | .bool b => b
  | .num n => n != 0
  | .str s => s != ""
  | .obj _ => true

/-- Reading a property of a JavaScript object (modelled as an association
list): an absent key reads as `undefined`. -/
def jsGet (o : List (String × JsVal)) (key : String) : JsVal :=
  match o.lookup key with
  | some v => v
  | none => .undefined

/-- The plugin JSON schema, restricted to what the settings editor reads:
`title` (typed `string | undefined` upstream), the value stored under the
`'jupyter.lab.setting-deprecated'` key, the key set of the `properties`
object (`none` models an absent `properties`), `additionalProperties`, and
the remaining top-level keys (`extras`), which is where `getHint` looks up
the icon hint keys. -/
structure JSchema where
  title : Option String := none
  deprecatedKey : JsVal := .undefined
  propertiesKeys : Option (List String) := none
  additionalProperties : JsVal := .undefined
  extras : List (String × JsVal) := []
  deriving DecidableEq, Repr

/-- A plugin descriptor from the setting registry: its id, schema, and the
`data.user` / `data.composite` objects read by `getHint`. -/
structure Plugin where
  id : String
  schema : JSchema := {}
  dataUser : List (String × JsVal) := []
  dataComposite : List (String × JsVal) := []
  deriving DecidableEq, Repr

/-- The setting registry as consumed here: `plugins` is the id → plugin map
(an association list in object-key enumeration order, as `Object.keys`
would walk it), and `schemaProperties` models `registry.schema.properties`,
mapping each property name to that property's `default` value (the only
field of a registry property that `getHint` reads); `none` models an absent
`properties` object. -/
structure SettingRegistry where
  plugins : List (String × Plugin)
  schemaProperties : Option (List (String × JsVal)) := none
  deriving DecidableEq, Repr

/-- The filter predicate written identically in the `PluginList`,
`PluginEditor` (form variant) and `SimpleSettingsEditor` constructors:
`deprecated` is `schema['jupyter.lab.setting-deprecated'] === true`,
`editable` is `Object.keys(schema.properties || {}).length > 0`,
`extensible` is `schema.additionalProperties !== false`, and a plugin is
kept iff `!deprecated && (editable || extensible)`. -/
def keepPlugin (p : Plugin) : Bool :=
  let isDeprecated := p.schema.deprecatedKey == JsVal.bool true
  let editable := (p.schema.propertiesKeys.getD []).length > 0
  let extensible := p.schema.additionalProperties != JsVal.bool false
  !isDeprecated && (editable || extensible)

/-- The sort key of `PluginList.sortPlugins`: `a.schema.title || a.id`,
i.e. a falsy title (absent or the empty string) falls back to the id. -/
def sortKey (p : Plugin) : String :=
  match p.schema.title with
  | some t => if t = "" then p.id else t
  | none => p.id

/-- The sort key as the specification words it, `title ?? id`: only an
absent title falls back to the id, an empty title is kept.  Stated only to
compare the spec against `sortKey`, which is what the source computes. -/
def specSortKey (p : Plugin) : String :=
  match p.schema.title with
  | some t => t
  | none => p.id

/-- The order produced by the comparator passed to `Array.prototype.sort`:
`(sortKey a).localeCompare(sortKey b)` non-positive.  `cmp` abstracts
`String.localeCompare` for the ambient locale. -/
def jsLe (cmp : String → String → Ordering) (a b : Plugin) : Prop :=
  cmp (sortKey a) (sortKey b) ≠ Ordering.gt

instance jsLeDecidable (cmp : String → String → Ordering) : DecidableRel (jsLe cmp) :=
  fun a b => inferInstanceAs (Decidable (cmp (sortKey a) (sortKey b) ≠ Ordering.gt))

/-- The values of the registry's plugin map in enumeration order, i.e.
`Object.keys(registry.plugins).map(plugin => registry.plugins[plugin]!)`. -/
def registryValues (registry : SettingRegistry) : List Plugin :=
  registry.plugins.map (·.2)

/-- `PluginList.sortPlugins`: sort the registry's plugins with the comparator
`(a.schema.title || a.id).localeCompare(b.schema.title || b.id)`.
`Array.prototype.sort` is a stable sort, modelled by insertion sort. -/
def sortPlugins (cmp : String → String → Ordering) (registry : SettingRegistry) : List Plugin :=
  List.insertionSort (jsLe cmp) (registryValues registry)

/-- `_allPlugins`, as computed in the `PluginList` constructor. -/
def allPluginsOf (cmp : String → String → Ordering) (registry : SettingRegistry) : List Plugin :=
  (sortPlugins cmp registry).filter keepPlugin

/-- The last resolution step of `getHint`:
`properties && properties[key] && properties[key].default` on the registry
schema.  An absent `properties` object or an absent key reads as `undefined`
(each `&&` guard yields its falsy left operand, which is `undefined` here);
otherwise the property's `default` value (itself `undefined` when the
property declares no default, which `jsGet` already models). -/
def registryDefault (registry : SettingRegistry) (key : String) : JsVal :=
  match registry.schemaProperties with
  | none => .undefined
  | some props => jsGet props key

/-- `PluginList.getHint`, line by line: `hint` starts as the user-data value
and is reassigned under `if (!hint)` (JS truthiness) from the composite
data, then the plugin schema's top-level key, then the registry schema's
property default; finally `typeof hint === 'string' ? hint : ''`. -/
def getHint (key : String) (registry : SettingRegistry) (plugin : Plugin) : String :=
  let hint1 := jsGet plugin.dataUser key
  let hint2 := if !hint1.truthy then jsGet plugin.dataComposite key else hint1
  let hint3 := if !hint2.truthy then jsGet plugin.schema.extras key else hint2
  let hint4 := if !hint3.truthy then registryDefault registry key else hint3
  match hint4 with
  | .str s => s
  | _ => ""

/-- The first truthy value of a chain of JavaScript values (`undefined` when
none is truthy): the combinator behind `getHint`'s reassignment cascade. -/
def firstTruthy : List JsVal → JsVal
  | [] => .undefined
  | v :: vs => if v.truthy then v else firstTruthy vs

/-- The state of a `PluginList` widget together with counters for its
observable effects: `scrollTopStored` is the `_scrollTop` field (the live
DOM `scrollTop` getter value is an input of the event handler, not widget
state), `changedEmits` counts `_changed.emit` calls and `updates` counts
`update()` requests. -/
structure PluginListState where
  selection : String := ""
  scrollTopStored : Option Nat := some 0
  modifiedPlugins : List Plugin := []
  allPlugins : List Plugin := []
  changedEmits : Nat := 0
  updates : Nat := 0
  deriving DecidableEq, Repr

/-- `PluginList._evtMousedown`.  `directId` is the `data-id` attribute of the
event target (`none` for a missing attribute), `ancestorId` the first
`data-id` found walking up the ancestors to the widget node when the target
has none, `domScrollTop` the current value of the `scrollTop` getter, and
`confirmResolves` whether the injected `_confirm(id)` promise resolves
(`true`) or rejects (`false`, handled by the no-op `catch`). -/
def evtMousedown (st : PluginListState) (directId ancestorId : Option String)
    (domScrollTop : Option Nat) (confirmResolves : Bool) : PluginListState :=
  if directId = some st.selection then st
  else
    match directId.orElse (fun _ => ancestorId) with
    | none => st
    | some i =>
      if confirmResolves then
        { st with
          scrollTopStored := domScrollTop
          selection := i
          changedEmits := st.changedEmits + 1
          updates := st.updates + 1 }
      else st

/-- The `selection` property setter: assigns `_selection` and calls
`update()`; it does not emit `_changed`. -/
def setSelection (st : PluginListState) (s : String) : PluginListState :=
  { st with selection := s, updates := st.updates + 1 }

/-- A loaded `Settings` snapshot; the only field `updateModifiedPlugins`
reads is `modifiedFields`. -/
structure SettingsSnapshot where
  modifiedFields : List String
  deriving DecidableEq, Repr

/-- The loop of `updateModifiedPlugins`: load every plugin in order and keep
those whose `modifiedFields` is non-empty.  The `await` sits inside the loop
with no `try`/`catch`, so a rejected load (`Except.error`) rejects the whole
computation.  `load` models `registry.load`, by outcome. -/
def computeModified (load : String → Except Unit SettingsSnapshot) :
    List Plugin → Except Unit (List Plugin)
  | [] => .ok []
  | p :: rest =>
    match load p.id with
    | .error e => .error e
    | .ok s =>
      match computeModified load rest with
      | .error e => .error e
      | .ok tail => .ok (if s.modifiedFields.length > 0 then p :: tail else tail)

/-- Whether one plugin's freshly loaded settings report a modified field
(`false` as well when its load rejects, a case the callers below never reach
that way because the rejection aborts the whole loop first). -/
def isModified (load : String → Except Unit SettingsSnapshot) (p : Plugin) : Bool :=
  match load p.id with
  | .ok s => s.modifiedFields.length > 0
  | .error _ => false

/-- `PluginList.updateModifiedPlugins` as a state transformer.  When the loop
rejects, `onUpdateRequest` discards the rejected promise (`void ...`), so the
widget state is unchanged.  Otherwise `_modifiedPlugins` is replaced (with an
`update()` request) exactly when the fresh list differs from the stored one
in length, or some fresh plugin's id is not found among the stored ones. -/
def updateModifiedPlugins (load : String → Except Unit SettingsSnapshot)
    (st : PluginListState) : PluginListState :=
  match computeModified load st.allPlugins with
  | .error _ => st
  | .ok fresh =>
    if st.modifiedPlugins.length ≠ fresh.length then
      { st with modifiedPlugins := fresh, updates := st.updates + 1 }
    else if fresh.any (fun p => !(st.modifiedPlugins.any (fun q => q.id == p.id))) then
      { st with modifiedPlugins := fresh, updates := st.updates + 1 }
    else st

/-- Modelled from the spec: the `PluginList` variant used by
`SimpleSettingsEditor` carries per-plugin error flags set through `setError`
and aggregated by `hasErrors`; `SimpleSettingsEditor` and `SettingsPanel`
call those members but the `PluginList` file defining them is not among the
provided sources.  Per the spec, the aggregate is true iff some plugin's
error flag is set. -/
def hasErrors (errorFlags : List (String × Bool)) : Bool :=
  errorFlags.any (·.2)

/-- The outcome of a close request: whether the confirmation dialog was
shown, and whether the panel actually closed (`super.onCloseRequest` ran). -/
structure CloseOutcome where
  dialogShown : Bool
  closed : Bool
  deriving DecidableEq, Repr

/-- `SimpleSettingsEditor.onCloseRequest`: with `hasErrors` true, show the
dialog and forward the close only when the user accepts; otherwise forward
the close immediately.  `accept` is the button choice used when the dialog
is shown. -/
def onCloseRequest (errorFlags : List (String × Bool)) (accept : Bool) : CloseOutcome :=
  if hasErrors errorFlags then { dialogShown := true, closed := accept }
  else { dialogShown := false, closed := true }

/-- Visibility state of the raw `PluginEditor` widget plus the underlying
`RawEditor`'s dirty flag, which the `isDirty` getter forwards. -/
structure RawPluginEditorState where
  isHidden : Bool
  isAttached : Bool
  rawIsDirty : Bool
  deriving DecidableEq, Repr

/-- The raw `PluginEditor.isDirty` getter: `this._rawEditor.isDirty`. -/
def rawEditorIsDirty (st : RawPluginEditorState) : Bool :=
  st.rawIsDirty

/-- The outcome of a `confirm` call: whether the blocking dialog was shown,
and the promise outcome (`.ok` a resolution, `.error` the message of the
thrown rejection). -/
structure ConfirmOutcome where
  dialogShown : Bool
  result : Except String Unit
  deriving Repr

/-- The raw `PluginEditor.confirm`: resolve immediately when the editor is
hidden, not attached, or not dirty; otherwise show the unsaved-changes
dialog, resolving on accept and throwing `'User canceled.'` otherwise. -/
def rawConfirm (st : RawPluginEditorState) (accept : Bool) : ConfirmOutcome :=
  if st.isHidden || !st.isAttached || !rawEditorIsDirty st then
    { dialogShown := false, result := .ok () }
  else
    { dialogShown := true
      result := if accept then .ok () else .error "User canceled." }

/-- One `SettingsFormEditorWidget` child of the form-based `PluginEditor`;
`confirm` only reads its `plugin.id`. -/
structure FormEditorChild where
  pluginId : String
  deriving DecidableEq, Repr

/-- Visibility state and children of the form-based `PluginEditor`. -/
structure FormPluginEditorState where
  isHidden : Bool
  isAttached : Bool
  editors : List FormEditorChild
  deriving DecidableEq, Repr

/-- The form-based `PluginEditor.isDirty` getter: the constant `false`. -/
def formIsDirty (_st : FormPluginEditorState) : Bool :=
  false

/-- The outcome of the form-based `confirm(id)`: which editor, if any, was
scrolled into view, whether the dialog was shown, and the promise outcome. -/
structure FormConfirmOutcome where
  scrolled : Option FormEditorChild
  dialogShown : Bool
  result : Except String Unit
  deriving Repr

/-- The form-based `PluginEditor.confirm(id)`: scroll the editor whose
plugin id matches into view when one exists, then resolve immediately when
hidden, not attached or not dirty, and otherwise run the same dialog as the
raw variant. -/
def formConfirm (st : FormPluginEditorState) (id : String) (accept : Bool) : FormConfirmOutcome :=
  let editor := st.editors.find? (fun e => e.pluginId == id)
  if st.isHidden || !st.isAttached || !formIsDirty st then
    { scrolled := editor, dialogShown := false, result := .ok () }
  else
    { scrolled := editor
      dialogShown := true
      result := if accept then .ok () else .error "User canceled." }

/-! ## Concrete inputs used by witnesses and counterexamples -/

/-- A plugin with no title: its sort key is its id under both readings. -/
def pNoTitle : Plugin :=
  { id := "a" }

/-- A plugin whose schema title is the empty string: `title || id` falls back
to the id, `title ?? id` keeps the empty string. -/
def pEmptyTitle : Plugin :=
  { id := "b", schema := { title := some "" } }

/-- A registry enumerating `pNoTitle` before `pEmptyTitle`. -/
def sortCexRegistry : SettingRegistry :=
  { plugins := [("a", pNoTitle), ("b", pEmptyTitle)] }

/-- A locale comparison ordering strings by length, used to pin the sorting
counterexample down without fixing a whole collation. -/
def lenCmp (a b : String) : Ordering :=
  compare a.length b.length

/-- The comparison deeming all strings equal: trivially transitive and
antisymmetric, used to instantiate the sorting theorem concretely. -/
def eqCmp (_a _b : String) : Ordering :=
  Ordering.eq

/-- A plugin whose user data holds the empty string under `"k"` while the
composite data holds `"x"` there. -/
def hintPlugin : Plugin :=
  { id := "p", dataUser := [("k", .str "")], dataComposite := [("k", .str "x")] }

/-- A registry with no schema-level property defaults. -/
def hintRegistry : SettingRegistry :=
  { plugins := [("p", hintPlugin)] }

/-- A plugin list state holding the two plugins `p1` and `p2`. -/
def twoPluginSt : PluginListState :=
  { allPlugins := [{ id := "p1" }, { id := "p2" }] }

/-- A registry load outcome map: `p2` loads with one modified field, any
other id rejects. -/
def rejLoad : String → Except Unit SettingsSnapshot :=
  fun i => if i = "p2" then .ok { modifiedFields := ["x"] } else .error ()

/-- A registry load outcome map: every load resolves, and only `p2` reports
a modified field. -/
def okLoad : String → Except Unit SettingsSnapshot :=
  fun i => if i = "p2" then .ok { modifiedFields := ["x"] } else .ok { modifiedFields := [] }

/-! ## Helper lemmas -/

@[simp] theorem truthy_undefined : JsVal.truthy .undefined = false := rfl

@[simp] theorem truthy_null : JsVal.truthy .null = false := rfl

@[simp] theorem truthy_bool (b : Bool) : JsVal.truthy (.bool b) = b := rfl

@[simp] theorem truthy_num (n : Int) : JsVal.truthy (.num n) = (n != 0) := rfl

@[simp] theorem truthy_str (s : String) : JsVal.truthy (.str s) = (s != "") := rfl

@[simp] theorem truthy_obj (o : Nat) : JsVal.truthy (.obj o) = true := rfl

/-- A mousedown whose confirmation promise rejects leaves the state exactly
as it was: every path of `_evtMousedown` other than the resolved `then`
callback returns without touching any field or emitting. -/
theorem mousedown_reject_eq (st : PluginListState) (directId ancestorId : Option String)
    (domScrollTop : Option Nat) :
    evtMousedown st directId ancestorId domScrollTop false = st := by
  unfold evtMousedown
  split
  · rfl
  · split
    · rfl
    · rfl

/-- `isModified` holds exactly when the load resolves to a snapshot with a
non-empty `modifiedFields` list. -/
theorem isModified_iff (load : String → Except Unit SettingsSnapshot) (p : Plugin) :
    isModified load p = true ↔ ∃ s, load p.id = Except.ok s ∧ s.modifiedFields ≠ [] := by
  unfold isModified
  cases h : load p.id <;> simp [List.length_pos]

/-- When every load in the list resolves, the loop computes exactly the
sublist of plugins reporting a modified field. -/
theorem computeModified_ok (load : String → Except Unit SettingsSnapshot) (ps : List Plugin)
    (h : ∀ p ∈ ps, (load p.id).isOk = true) :
    computeModified load ps = .ok (ps.filter (isModified load)) := by
  induction ps with
  | nil => rfl
  | cons p rest ih =>
    obtain ⟨s, hs⟩ : ∃ s, load p.id = Except.ok s := by
      have hp := h p (List.mem_cons_self p rest)
      cases hl : load p.id
      · rw [hl] at hp
        simp [Except.isOk, Except.toBool] at hp
      · exact ⟨_, rfl⟩
    have ihr := ih (fun q hq => h q (List.mem_cons_of_mem p hq))
    simp only [computeModified, hs, ihr, List.filter_cons]
    by_cases hm : s.modifiedFields.length > 0 <;> simp [isModified, hs, hm]

/-- When some plugin's load rejects, the whole loop rejects: every iteration
`await`s its load unconditionally, so the rejection is reached and rethrown. -/
theorem computeModified_error (load : String → Except Unit SettingsSnapshot) (ps : List Plugin)
    (h : ∃ p ∈ ps, load p.id = Except.error ()) :
    computeModified load ps = .error () := by
  induction ps with
  | nil => simp at h
  | cons p rest ih =>
    obtain ⟨q, hq, hqe⟩ := h
    rcases List.mem_cons.mp hq with rfl | hq'
    · simp [computeModified, hqe]
    · cases hl : load p.id with
      | error e => cases e; simp [computeModified, hl]
      | ok s => simp [computeModified, hl, ih ⟨q, hq', hqe⟩]

/-! ## The claims -/

/-- C1: when a plugin is selected by mousedown and the injected confirmation
promise rejects, the selection change is not applied: the prior selection,
the stored scroll position and all other plugin-list state are unchanged and
no `changed` notification fires (the state, emission counter included, is
exactly what it was). -/
theorem evtMousedown_rejected_noop (st : PluginListState) (directId ancestorId : Option String)
    (domScrollTop : Option Nat) :
    evtMousedown st directId ancestorId domScrollTop false = st :=
  mousedown_reject_eq st directId ancestorId domScrollTop

/-- C2: when the confirmation promise resolves for a mousedown on id `i`
(not already selected), the selection becomes `i` and exactly one `changed`
notification fires; a rejected confirmation emits nothing; and writing the
`selection` property directly re-renders (one `update()`) without emitting
`changed`. -/
theorem evtMousedown_confirmed_updates (st : PluginListState)
    (directId ancestorId : Option String) (domScrollTop : Option Nat) (i s : String)
    (hne : directId ≠ some st.selection)
    (hid : directId.orElse (fun _ => ancestorId) = some i) :
    evtMousedown st directId ancestorId domScrollTop true =
      { st with
        scrollTopStored := domScrollTop
        selection := i
        changedEmits := st.changedEmits + 1
        updates := st.updates + 1 } ∧
    (evtMousedown st directId ancestorId domScrollTop false).changedEmits = st.changedEmits ∧
    (setSelection st s).selection = s ∧
    (setSelection st s).updates = st.updates + 1 ∧
    (setSelection st s).changedEmits = st.changedEmits := by
  refine ⟨?_, ?_, rfl, rfl, rfl⟩
  · unfold evtMousedown
    rw [if_neg hne, hid]
    rfl
  · rw [mousedown_reject_eq]

/-- C2 witness: a confirmed mousedown on `p1` from the initial state, and a
direct write of the `selection` property. -/
theorem evtMousedown_confirmed_at_input :
    evtMousedown {} (some "p1") none (some 5) true =
      { ({} : PluginListState) with
        scrollTopStored := some 5
        selection := "p1"
        changedEmits := ({} : PluginListState).changedEmits + 1
        updates := ({} : PluginListState).updates + 1 } ∧
    (evtMousedown {} (some "p1") none (some 5) false).changedEmits =
      ({} : PluginListState).changedEmits ∧
    (setSelection {} "p2").selection = "p2" ∧
    (setSelection {} "p2").updates = ({} : PluginListState).updates + 1 ∧
    (setSelection {} "p2").changedEmits = ({} : PluginListState).changedEmits :=
  evtMousedown_confirmed_updates {} (some "p1") none (some 5) "p1" "p2" (by decide) rfl

/-- C3: the constructors' filter keeps exactly the plugins that are not
marked deprecated and are editable (at least one `properties` key) or
extensible (`additionalProperties` not strictly `false`); in particular
every deprecated plugin is dropped, as is every plugin with an empty
`properties` key set and `additionalProperties: false`. -/
theorem mem_filter_keepPlugin_iff (ps : List Plugin) (p : Plugin) :
    p ∈ ps.filter keepPlugin ↔
      p ∈ ps ∧ p.schema.deprecatedKey ≠ JsVal.bool true ∧
        (p.schema.propertiesKeys.getD [] ≠ [] ∨
          p.schema.additionalProperties ≠ JsVal.bool false) := by
  simp [List.mem_filter, keepPlugin, List.length_pos]

/-- C4 counterexample: the user-set value under `"k"` is the string `""`, a
present, user-set string, yet `getHint` does not return it: `!hint` tests JS
truthiness, so the falsy user string is skipped and the composite value
`"x"` wins.  Under the claimed strict user-first priority the result would
be the user's string `""`. -/
theorem getHint_falsy_user_cex :
    hintPlugin.dataUser.lookup "k" = some (JsVal.str "") ∧
    getHint "k" hintRegistry hintPlugin = "x" := by
  exact ⟨by decide, by decide⟩

/-- C4 amended: `getHint` resolves to the first truthy value of the chain
user data → composite data → plugin schema top-level key → registry schema
property default, returning it when it is a string and the empty string
otherwise; falsy stage values (absent, `undefined`, `null`, `false`, `0`,
`""`) are skipped even when present. -/
theorem getHint_eq_firstTruthy (key : String) (registry : SettingRegistry) (plugin : Plugin) :
    getHint key registry plugin =
      (match firstTruthy [jsGet plugin.dataUser key, jsGet plugin.dataComposite key,
          jsGet plugin.schema.extras key, registryDefault registry key] with
       | .str s => s
       | _ => "") := by
  unfold getHint
  simp only [firstTruthy]
  by_cases h1 : (jsGet plugin.dataUser key).truthy
  · simp [h1]
  · by_cases h2 : (jsGet plugin.dataComposite key).truthy
    · simp [h1, h2]
    · by_cases h3 : (jsGet plugin.schema.extras key).truthy
      · simp [h1, h2, h3]
      · rw [Bool.not_eq_true] at h1 h2 h3
        cases hr : registryDefault registry key with
        | undefined => simp [h1, h2, h3, hr]
        | null => simp [h1, h2, h3, hr]
        | bool b => cases b <;> simp [h1, h2, h3, hr]
        | num n => by_cases hn : n = 0 <;> simp [h1, h2, h3, hr, hn]
        | str s =>
          by_cases hs : s = ""
          · subst hs
            simp [h1, h2, h3, hr]
          · simp [h1, h2, h3, hr, hs]
        | obj o => simp [h1, h2, h3, hr]

/-- C5: after an update cycle in which every registry load resolves, the
stored modified subset is, as a set of plugin ids, exactly the plugins of
the (filtered, stored) plugin list whose freshly loaded settings report at
least one modified field — whether or not the length/membership check
decided to overwrite `_modifiedPlugins`. -/
theorem updateModifiedPlugins_exact (load : String → Except Unit SettingsSnapshot)
    (st : PluginListState) (x : String)
    (hok : ∀ p ∈ st.allPlugins, (load p.id).isOk = true)
    (hids : (st.allPlugins.map Plugin.id).Nodup) :
    x ∈ (updateModifiedPlugins load st).modifiedPlugins.map Plugin.id ↔
      ∃ p ∈ st.allPlugins, p.id = x ∧
        ∃ s, load p.id = Except.ok s ∧ s.modifiedFields ≠ [] := by
  have hcm := computeModified_ok load st.allPlugins hok
  set fresh := st.allPlugins.filter (isModified load) with hfresh
  have hmem : ∀ y : String, y ∈ fresh.map Plugin.id ↔
      ∃ p ∈ st.allPlugins, p.id = y ∧
        ∃ s, load p.id = Except.ok s ∧ s.modifiedFields ≠ [] := by
    intro y
    simp only [hfresh, List.mem_map, List.mem_filter]
    constructor
    · rintro ⟨p, ⟨hp, hmod⟩, hpy⟩
      exact ⟨p, hp, hpy, (isModified_iff load p).mp hmod⟩
    · rintro ⟨p, hp, hpy, hmod⟩
      exact ⟨p, ⟨hp, (isModified_iff load p).mpr hmod⟩, hpy⟩
  have hstep : updateModifiedPlugins load st =
      (if st.modifiedPlugins.length ≠ fresh.length then
        { st with modifiedPlugins := fresh, updates := st.updates + 1 }
      else if fresh.any (fun p => !(st.modifiedPlugins.any (fun q => q.id == p.id))) then
        { st with modifiedPlugins := fresh, updates := st.updates + 1 }
      else st) := by
    unfold updateModifiedPlugins
    rw [hcm]
  rw [hstep]
  split_ifs with h1 h2
  · exact hmem x
  · exact hmem x
  · have hlen : st.modifiedPlugins.length = fresh.length := not_not.mp h1
    have hsub : ∀ p ∈ fresh, p.id ∈ st.modifiedPlugins.map Plugin.id := by
      intro p hp
      by_contra hno
      apply h2
      rw [List.any_eq_true]
      refine ⟨p, hp, ?_⟩
      have hfalse : (st.modifiedPlugins.any fun q => q.id == p.id) = false :=
        Bool.eq_false_iff.mpr (by
          intro hany
          rw [List.any_eq_true] at hany
          obtain ⟨q, hq, hqeq⟩ := hany
          exact hno (List.mem_map.mpr ⟨q, hq, beq_iff_eq.mp hqeq⟩))
      rw [hfalse]
      rfl
    have hfreshNodup : (fresh.map Plugin.id).Nodup :=
      ((List.filter_sublist st.allPlugins).map Plugin.id).nodup hids
    have hsubF : (fresh.map Plugin.id).toFinset ⊆ (st.modifiedPlugins.map Plugin.id).toFinset := by
      intro y hy
      rw [List.mem_toFinset] at hy ⊢
      rw [List.mem_map] at hy
      obtain ⟨p, hp, hpy⟩ := hy
      exact hpy ▸ hsub p hp
    have hcard : (st.modifiedPlugins.map Plugin.id).toFinset.card ≤
        (fresh.map Plugin.id).toFinset.card := by
      calc (st.modifiedPlugins.map Plugin.id).toFinset.card
          ≤ (st.modifiedPlugins.map Plugin.id).length := List.toFinset_card_le _
        _ = st.modifiedPlugins.length := List.length_map _ _
        _ = fresh.length := hlen
        _ = (fresh.map Plugin.id).length := (List.length_map _ _).symm
        _ = (fresh.map Plugin.id).toFinset.card := (List.toFinset_card_of_nodup hfreshNodup).symm
    have hset : (fresh.map Plugin.id).toFinset = (st.modifiedPlugins.map Plugin.id).toFinset :=
      Finset.eq_of_subset_of_card_le hsubF hcard
    have hx : x ∈ st.modifiedPlugins.map Plugin.id ↔ x ∈ fresh.map Plugin.id := by
      rw [← List.mem_toFinset, ← hset, List.mem_toFinset]
    exact hx.trans (hmem x)

/-- C5 witness: the two-plugin state under the all-resolving load where only
`p2` reports a modified field. -/
theorem updateModifiedPlugins_exact_at_input :
    "p2" ∈ (updateModifiedPlugins okLoad twoPluginSt).modifiedPlugins.map Plugin.id ↔
      ∃ p ∈ twoPluginSt.allPlugins, p.id = "p2" ∧
        ∃ s, okLoad p.id = Except.ok s ∧ s.modifiedFields ≠ [] :=
  updateModifiedPlugins_exact okLoad twoPluginSt "p2" (by decide) (by decide)

/-- C6 counterexample: with `p1`'s load rejecting and `p2` loading fine with
a modified field, the claim predicts that `p1` is merely treated as absent
while the computation completes, leaving `p2` in the modified subset; in the
code the uncaught rejection aborts the loop and `_modifiedPlugins` stays
empty, so `p2` is not in the modified subset. -/
theorem updateModifiedPlugins_rejection_cex :
    rejLoad "p1" = Except.error () ∧
    rejLoad "p2" = Except.ok { modifiedFields := ["x"] } ∧
    twoPluginSt.allPlugins.map Plugin.id = ["p1", "p2"] ∧
    (updateModifiedPlugins rejLoad twoPluginSt).modifiedPlugins = [] ∧
    "p2" ∉ (updateModifiedPlugins rejLoad twoPluginSt).modifiedPlugins.map Plugin.id := by
  exact ⟨by decide, by decide, by decide, by decide, by decide⟩

/-- C6 amended: when some stored plugin's registry load rejects, the
modified-set recomputation is not caught anywhere — the whole
`updateModifiedPlugins` promise rejects (the loop aborts at the failing
`await`, skipping the remaining plugins) and, since `onUpdateRequest`
discards the promise, the widget state, `_modifiedPlugins` included, is
left exactly as it was. -/
theorem updateModifiedPlugins_rejected_load (load : String → Except Unit SettingsSnapshot)
    (st : PluginListState)
    (h : ∃ p ∈ st.allPlugins, load p.id = Except.error ()) :
    computeModified load st.allPlugins = Except.error () ∧
    updateModifiedPlugins load st = st := by
  have hc := computeModified_error load st.allPlugins h
  refine ⟨hc, ?_⟩
  unfold updateModifiedPlugins
  rw [hc]

/-- C6 witness: the two-plugin state under the load that rejects for `p1`. -/
theorem updateModifiedPlugins_rejected_load_at_input :
    computeModified rejLoad twoPluginSt.allPlugins = Except.error () ∧
    updateModifiedPlugins rejLoad twoPluginSt = twoPluginSt :=
  updateModifiedPlugins_rejected_load rejLoad twoPluginSt
    ⟨{ id := "p1" }, by decide, by decide⟩

/-- C7: a close request while some plugin has its error flag set shows the
confirmation dialog, and the panel closes exactly when the user accepts;
with no error flag set the panel closes with no dialog.  (The aggregate
error flag itself is modelled from the spec, see `hasErrors`.) -/
theorem onCloseRequest_gating (errorFlags : List (String × Bool)) (accept : Bool) :
    ((onCloseRequest errorFlags accept).dialogShown = true ↔ ∃ e ∈ errorFlags, e.2 = true) ∧
    ((onCloseRequest errorFlags accept).closed = true ↔
      ((∀ e ∈ errorFlags, e.2 = false) ∨ accept = true)) := by
  unfold onCloseRequest hasErrors
  by_cases h : (errorFlags.any (·.2)) = true
  · rw [if_pos h]
    rw [List.any_eq_true] at h
    obtain ⟨e, he, hev⟩ := h
    constructor
    · simp only [true_iff]
      exact ⟨e, he, hev⟩
    · constructor
      · intro ha
        exact Or.inr ha
      · rintro (hall | ha)
        · exact absurd hev (by simp [hall e he])
        · exact ha
  · rw [if_neg h]
    rw [List.any_eq_true] at h
    push_neg at h
    constructor
    · simp only [Bool.false_eq_true, false_iff]
      rintro ⟨e, he, hev⟩
      exact h e he hev
    · simp only [true_iff]
      exact Or.inl (fun e he => Bool.eq_false_iff.mpr (h e he))

/-- C8 counterexample: under the length comparison, the plugin with the
empty-string title sorts by its id (the comparator key is `title || id`),
so the output `[pNoTitle, pEmptyTitle]` has a consecutive pair whose
`title ?? id` keys compare greater — the list is not sorted on the claimed
key `(title ?? id)`; the stable sort on that key would give the reversed
order. -/
theorem sortPlugins_spec_key_cex :
    sortPlugins lenCmp sortCexRegistry = [pNoTitle, pEmptyTitle] ∧
    lenCmp (specSortKey pNoTitle) (specSortKey pEmptyTitle) = Ordering.gt ∧
    List.insertionSort
        (fun a b => lenCmp (specSortKey a) (specSortKey b) ≠ Ordering.gt)
        (registryValues sortCexRegistry) = [pEmptyTitle, pNoTitle] := by
  exact ⟨by decide, by decide, by decide⟩

/-- C8 amended: for every comparison that is transitive and antisymmetric in
the `localeCompare` sense, `sortPlugins` returns a permutation of the
registry's plugins that is sorted by the comparison on the key
`title || id` (the schema title, falling back to the id when the title is
absent or empty) and is stable: plugins with equal keys keep their registry
order. -/
theorem sortPlugins_stable_by_titleOrId (cmp : String → String → Ordering)
    (registry : SettingRegistry)
    (htrans : ∀ a b c : String,
      cmp a b ≠ Ordering.gt → cmp b c ≠ Ordering.gt → cmp a c ≠ Ordering.gt)
    (hanti : ∀ a b : String, cmp a b = Ordering.gt → cmp b a ≠ Ordering.gt) :
    (sortPlugins cmp registry).Perm (registryValues registry) ∧
    List.Sorted (jsLe cmp) (sortPlugins cmp registry) ∧
    ∀ k : String, (sortPlugins cmp registry).filter (fun p => sortKey p == k) =
      (registryValues registry).filter (fun p => sortKey p == k) := by
  have hrefl : ∀ a : String, cmp a a ≠ Ordering.gt := fun a h => hanti a a h h
  haveI : IsTotal Plugin (jsLe cmp) := ⟨by
    intro a b
    by_cases h : cmp (sortKey a) (sortKey b) = Ordering.gt
    · exact Or.inr (hanti _ _ h)
    · exact Or.inl h⟩
  haveI : IsTrans Plugin (jsLe cmp) := ⟨by
    intro a b c hab hbc
    exact htrans _ _ _ hab hbc⟩
  refine ⟨List.perm_insertionSort _ _, List.sorted_insertionSort _ _, ?_⟩
  intro k
  have hpair : List.Pairwise (jsLe cmp)
      ((registryValues registry).filter (fun p => sortKey p == k)) := by
    apply List.pairwise_of_forall_mem_list
    intro a ha b hb
    have hak : sortKey a = k := beq_iff_eq.mp (List.mem_filter.mp ha).2
    have hbk : sortKey b = k := beq_iff_eq.mp (List.mem_filter.mp hb).2
    unfold jsLe
    rw [hak, hbk]
    exact hrefl k
  have hsub : ((registryValues registry).filter (fun p => sortKey p == k)).Sublist
      (sortPlugins cmp registry) :=
    List.sublist_insertionSort hpair (List.filter_sublist _)
  have hidem : (((registryValues registry).filter (fun p => sortKey p == k)).filter
      (fun p => sortKey p == k)) = (registryValues registry).filter (fun p => sortKey p == k) :=
    List.filter_eq_self.mpr (fun a ha => (List.mem_filter.mp ha).2)
  have hsub2 : ((registryValues registry).filter (fun p => sortKey p == k)).Sublist
      ((sortPlugins cmp registry).filter (fun p => sortKey p == k)) := by
    have hstep := hsub.filter (fun p => sortKey p == k)
    rwa [hidem] at hstep
  have hlen : ((sortPlugins cmp registry).filter (fun p => sortKey p == k)).length =
      ((registryValues registry).filter (fun p => sortKey p == k)).length :=
    ((List.perm_insertionSort (jsLe cmp) (registryValues registry)).filter _).length_eq
  exact (hsub2.eq_of_length hlen.symm).symm

/-- C8 witness: the all-equal comparison on a two-plugin registry, where the
hypotheses hold trivially. -/
theorem sortPlugins_stable_at_input :
    (sortPlugins eqCmp sortCexRegistry).Perm (registryValues sortCexRegistry) ∧
    List.Sorted (jsLe eqCmp) (sortPlugins eqCmp sortCexRegistry) ∧
    ∀ k : String, (sortPlugins eqCmp sortCexRegistry).filter (fun p => sortKey p == k) =
      (registryValues sortCexRegistry).filter (fun p => sortKey p == k) :=
  sortPlugins_stable_by_titleOrId eqCmp sortCexRegistry
    (fun _ _ _ _ _ h => nomatch h) (fun _ _ h => nomatch h)

/-- C9: the raw editor's `confirm` shows the unsaved-changes dialog exactly
when the editor is visible, attached and dirty; otherwise it resolves with
no dialog; when the dialog is shown it resolves on accept and rejects with
`'User canceled.'` on decline. -/
theorem rawConfirm_characterization (st : RawPluginEditorState) (accept : Bool) :
    (rawConfirm st accept).dialogShown = (!st.isHidden && st.isAttached && rawEditorIsDirty st) ∧
    (rawConfirm st accept).result =
      (if !st.isHidden && st.isAttached && rawEditorIsDirty st && !accept
       then Except.error "User canceled." else Except.ok ()) := by
  rcases st with ⟨h, a, d⟩
  cases h <;> cases a <;> cases d <;> cases accept <;>
    simp [rawConfirm, rawEditorIsDirty]

/-- C10: since the form-based editor's `isDirty` is constantly `false`, its
`confirm(id)` never shows the unsaved-changes dialog and always resolves,
after scrolling the editor whose plugin id matches (when one exists) into
view. -/
theorem formConfirm_never_blocks (st : FormPluginEditorState) (id : String) (accept : Bool) :
    formIsDirty st = false ∧
    formConfirm st id accept =
      { scrolled := st.editors.find? (fun e => e.pluginId == id)
        dialogShown := false
        result := Except.ok () } := by
  refine ⟨rfl, ?_⟩
  simp [formConfirm, formIsDirty]
